import Mathlib

/-!
Verification of the macro playback engine of the ActionRecorder repository
(`src/ActRec/actrec/functions/shared.py`), as a shallow embedding in Lean.

The embedding models:
  * macros (`MacroItem`) with a command that is either a plain invocation
    string or a structured `ar.event:<json>` pseudo-event payload
    (`Command`); the JSON decoding of the payload is modelled by the
    `Command.event` constructor carrying the decoded `Event` value, and a
    plain command is assumed not to carry the reserved event tag;
  * the ambient Blender state touched by playback (`World`): the global
    object set (`bpy.data.objects`), the active view layer objects, the
    current selection, the active object, the active area/region and the
    open windows;
  * the interpreter `play` (source lines 428-648) together with its
    helpers `execute_individually` (401-425) and the render-complete
    drain `execute_render_complete` (651-678).

Host primitives that execute outside the interpreter are oracles in `Env`:
`exec` models Python `exec` of a command string against the ambient state,
`pyEval` models `eval` of a loop predicate, and `scriptRun` models running
a `Run Script` body as a module.  `bpy.app.timers.register` is modelled by
appending a `Continuation` to the state; the render-complete queue
`shared_data.render_complete_macros` is the `rcQueue` field.  Python
exceptions raised by host accesses (IndexError, KeyError, NameError,
AttributeError, TypeError) are modelled as `PErr` values.  Unbounded
recursion of `play` is handled with a fuel parameter; running out of fuel
is the distinguished artificial error `PErr.outOfFuel`.
-/

/-- a sub-region of an area (`bpy.types.Region`), carrying only the fields
the player reads: its `type`.  A `name` field distinguishes sibling regions
of equal type, standing for object identity. -/
structure Region where
  name : String
  type : String
deriving Repr, DecidableEq

/-- an area (`bpy.types.Area`): its `ui_type` and its ordered `regions`. -/
structure Area where
  ui_type : String
  regions : List Region
deriving Repr, DecidableEq

/-- a top-level window; `areas` stands for `window.screen.areas`. -/
structure Window where
  areas : List Area
deriving Repr, DecidableEq

/-- the decoded `ar.event:<json>` payload, discriminated by its `Type`
field (source: the `data['Type']` dispatch in `play`).  Field names follow
the JSON keys: `Time`, `StatementType`, `PyStatement`, `Startnumber`,
`Endnumber`, `Stepnumber`, `RepeatCount`, `KeepSelection`, `Objects`,
`Object`, `ScriptText`. -/
inductive Event where
  | timer (time : Int)
  | loop (statementType : String) (pyStatement : String)
      (startnumber endnumber stepnumber : Int) (repeatCount : Int)
  | endLoop
  | selectObject (keepSelection : Bool) (objects : List String) (objectField : String)
  | runScript (scriptText : String)
  | renderComplete
deriving Repr, DecidableEq

/-- a macro command string: either a plain invocation string, or a
pseudo-event, i.e. a string of the form `ar.event:<json>` whose payload
decodes to an `Event` (source: `macro.command.split(":")[0] == 'ar.event'`
followed by `json.loads`).  A `plain` command is assumed not to start with
the reserved `ar.event:` tag. -/
inductive Command where
  | plain (s : String)
  | event (e : Event)
deriving Repr, DecidableEq

/-- one macro of an action: `id`, `command`, `active`,
`operator_execution_context` and `ui_type` are the attributes the player
reads.  The `alert` flag it writes is tracked in `PState.alertMacros`
instead of inside the macro. -/
structure MacroItem where
  id : String
  command : Command
  active : Bool
  operator_execution_context : String
  ui_type : String
deriving Repr, DecidableEq

/-- the errors a playback pass can produce: `msg` is an error string
returned by `play` itself, the exception constructors model the Python
exceptions the source can raise, and `outOfFuel` is the artificial result
of exhausting the recursion fuel of the model. -/
inductive PErr where
  | msg (s : String)
  | execError (s : String)
  | scriptError (s : String)
  | evalError (s : String)
  | indexError
  | keyError
  | nameError
  | attributeError
  | typeError
  | valueError
  | outOfFuel
deriving Repr, DecidableEq

/-- the ambient Blender state the player reads and mutates.
`dataObjects` models the names in `bpy.data.objects`, `viewLayerObjects`
the objects of `context.view_layer.objects`, `selected` the current
selection (`context.selected_objects`), `activeObject` the active object,
`area`/`region` the active area and region of the context, and `windows`
the open windows (`context.window_manager.windows`). -/
structure World where
  dataObjects : List String
  viewLayerObjects : List String
  selected : List String
  activeObject : Option String
  area : Option Area
  region : Option Region
  windows : List Window
deriving Repr, DecidableEq

/-- a deferred continuation registered with `bpy.app.timers.register`
(source lines 474-486): the arguments of the `functools.partial` around
`run_queued_macros` plus the delay. -/
structure Continuation where
  macros : List MacroItem
  loopingCount : Int
  macrosAfterLoop : Option (List MacroItem)
  macrosBeforeTimer : Option (List MacroItem)
  firstInterval : Int
deriving Repr, DecidableEq

/-- the mutable playback state threaded through the interpreter:
the world, the trace of plain-macro dispatches (macro id and the region
resolved for the invocation), the trace of `exec` calls, the registered
timer continuations, the render-complete queue
(`shared_data.render_complete_macros`) and the alert flags set on the
action and on individual macros. -/
structure PState where
  world : World
  dispatches : List (String × Option Region)
  execs : List Command
  timers : List Continuation
  rcQueue : List (String × String × String)
  actionAlert : Bool
  alertMacros : List String
deriving Repr, DecidableEq

/-- fresh playback state over a world. -/
def initState (w : World) : PState :=
  { world := w, dispatches := [], execs := [], timers := [], rcQueue := [],
    actionAlert := false, alertMacros := [] }

/-- the fixed data of one playback run: the owning action (`action.id`,
its `execution_mode`), the `action_type` string, and the host oracles:
`exec` models Python `exec` of a (possibly rewritten) command against the
world, `pyEval` models `eval(data["PyStatement"])`, and `scriptRun`
models executing a `Run Script` body (`none` is success, `some e` the
formatted error text). -/
structure Env where
  actionId : String
  actionType : String
  executionMode : String
  exec : Command → World → Except PErr World
  pyEval : String → World → Except PErr Bool
  scriptRun : String → Option String

/-- classifies a macro command (source: `split = macro.command.split(":")`
and `split[0] == 'ar.event'` followed by `json.loads` of the rest): the
decoded event payload, or `none` for a plain command. -/
def isArEvent (c : Command) : Option Event :=
  match c with
  | Command.plain _ => none
  | Command.event e => some e

/-- Python `str.isidentifier` restricted to ASCII, as used by
`extract_properties` on property names. -/
def pyIsIdentifier (s : String) : Bool :=
  match s.data with
  | [] => false
  | c :: cs => (c.isAlpha || c = '_') && cs.all (fun d => d.isAlphanum || d = '_')

/-- source `extract_properties` (lines 317-339): splits a
`"prop1, prop2, ..."` string on commas, starts a new property whenever a
`name=` head is an identifier, otherwise glues the comma-fragment onto the
current property, and drops the leading empty accumulator. -/
def extract_properties (properties : String) : List String :=
  let props := properties.splitOn ","
  let step : (List String × String) → String → (List String × String) := fun acc prop =>
    let parts := prop.splitOn "="
    if pyIsIdentifier ((parts.headD "").trim) && parts.length > 1 then
      (acc.1 ++ [acc.2.trim], String.intercalate "=" parts)
    else
      (acc.1, acc.2 ++ "," ++ parts.headD "")
  let folded := props.foldl step ([], "")
  (folded.1 ++ [folded.2.trim]).drop 1

/-- the recursion guard of `play` (source lines 574-579): a plain command
that starts with `bpy.ops.ar.local_play` and whose extracted properties
are exactly the default set.  `command.split("(")[1]` raises IndexError
when the command has no parenthesis, modelled by the error case. -/
def checkGuard (c : Command) : Except PErr Bool :=
  match c with
  | Command.event _ => Except.ok false
  | Command.plain s =>
    if s.startsWith "bpy.ops.ar.local_play" then
      match s.splitOn "(" with
      | [] => Except.error PErr.indexError
      | [_] => Except.error PErr.indexError
      | _ :: inner :: _ =>
        let props := extract_properties (inner.dropRight 1)
        Except.ok (props.contains "id=\"\"" && props.contains "index=-1" &&
          props.all (fun p => p = "id=\"\"" || p = "index=-1"))
    else Except.ok false

/-- the dispatch-time rewriting of a plain command (source lines 581-586):
a `bpy.ops.` command gets the macro's `operator_execution_context`
injected as its first argument, a `bpy.context.` command is retargeted to
the override context. -/
def rewriteCommand (opCtx : String) (c : Command) : Command :=
  match c with
  | Command.event _ => c
  | Command.plain s =>
    if s.startsWith "bpy.ops." then
      match s.splitOn "(" with
      | [] => Command.plain s
      | head :: tail =>
        Command.plain (head ++ "(\"" ++ opCtx ++ "\", " ++ String.intercalate "(" tail)
    else if s.startsWith "bpy.context." then
      Command.plain (s.replace "bpy.context." "context.")
    else Command.plain s

/-- `object.select_set(b)`: adds the named object to or removes it from
the selection. -/
def selectSet (b : Bool) (name : String) (w : World) : World :=
  if b then
    if w.selected.contains name then w
    else { w with selected := w.selected ++ [name] }
  else { w with selected := w.selected.filter (fun n => n ≠ name) }

/-- the target-region scan of `play` (source lines 605-609): iterate the
area's regions in reverse and, for each region of type `WINDOW`, overwrite
the candidate region; there is no early exit. -/
def chooseRegion (current : Option Region) (regions : List Region) : Option Region :=
  regions.reverse.foldl
    (fun temp r => if r.type ≠ "WINDOW" then temp else some r) current

/-- the window search of `play` (source lines 594-601): walk the open
windows in the given (already reversed) order and return the first window
whose first area has the required `ui_type`; `window.screen.areas[0]`
raises IndexError on a window with no areas. -/
def findWindow (uiType : String) (ws : List Window) : Except PErr (Option Window) :=
  match ws with
  | [] => Except.ok none
  | win :: rest =>
    match win.areas with
    | [] => Except.error PErr.indexError
    | a0 :: _ => if a0.ui_type = uiType then Except.ok (some win) else findWindow uiType rest

/-- the execution-surface resolution of `play` (source lines 588-604):
if the macro declares a `ui_type` different from the active area's, search
the reversed window list for a matching window — on a hit the source then
evaluates `temp_screen.area[0]`, an attribute that does not exist
(`areas`), raising AttributeError; on a miss it coerces the active area's
`ui_type` and remembers the old one for restoration.  Returns the world
(with the possibly coerced area), the chosen area and the remembered
`area_type`. -/
def resolveArea (w : World) (m : MacroItem) : Except PErr (World × Option Area × Option String) :=
  match w.area with
  | none => Except.ok (w, none, none)
  | some a =>
    if m.ui_type ≠ "" ∧ a.ui_type ≠ m.ui_type then
      match findWindow m.ui_type w.windows.reverse with
      | Except.error e => Except.error e
      | Except.ok (some _) => Except.error PErr.attributeError
      | Except.ok none =>
        let a2 := { a with ui_type := m.ui_type }
        Except.ok ({ w with area := some a2 }, some a2, some a.ui_type)
    else Except.ok (w, some a, none)

/-- restores `temp_area.ui_type`/`base_area.ui_type` (which alias
`context.area` whenever the restoration branches run). -/
def setAreaUiType (w : World) (t : String) : World :=
  { w with area := w.area.map (fun a => { a with ui_type := t }) }

/-- setting `action.alert = macro.alert = True` for the given macro id. -/
def alertSt (st : PState) (mid : String) : PState :=
  { st with actionAlert := true, alertMacros := st.alertMacros ++ [mid] }

/-- the per-object loop of `execute_individually` (source lines 413-421):
select the object, make it active, run the command, then deselect it
(`suppress(ReferenceError)` — objects are never deleted in the model, so
the suppression is a no-op).  An exception from `exec` propagates
immediately.  Also returns the trace of `exec` calls. -/
def execIndLoop (env : Env) (w : World) (objs : List String) (command : Command) :
    World × List Command × Option PErr :=
  match objs with
  | [] => (w, [], none)
  | o :: rest =>
    let wa := selectSet true o w
    let wb := { wa with activeObject := some o }
    match env.exec command wb with
    | Except.error e => (wb, [command], some e)
    | Except.ok wc =>
      let wd := selectSet false o wc
      let r := execIndLoop env wd rest command
      (r.1, command :: r.2.1, r.2.2)

/-- source `execute_individually` (lines 401-425): snapshot the selected
objects, deselect them all, run the command once per object via
`execIndLoop`, and — only when no exception escaped the loop — reselect
the snapshot. -/
def execute_individually (env : Env) (w : World) (command : Command) :
    World × List Command × Option PErr :=
  let old := w.selected
  let w1 := old.foldl (fun wa n => selectSet false n wa) w
  match execIndLoop env w1 old command with
  | (w2, ex, some e) => (w2, ex, some e)
  | (w2, ex, none) =>
    let w3 := old.foldl (fun wa n => selectSet true n wa) w2
    (w3, ex, none)

/-- the non-realtime pre-scan of `play` (source lines 452-458): find the
first `Render Complete` event among the already-filtered macros and
register `(action_type, action.id, macros[i + 1].id)` on the
render-complete queue; `macros[i + 1]` raises IndexError when the event
is the last filtered macro. -/
def preScan (env : Env) (rest : List MacroItem) :
    Except PErr (Option (String × String × String)) :=
  match rest with
  | [] => Except.ok none
  | m :: rest2 =>
    match isArEvent m.command with
    | some Event.renderComplete =>
      match rest2 with
      | nxt :: _ => Except.ok (some (env.actionType, env.actionId, nxt.id))
      | [] => Except.error PErr.indexError
    | _ => preScan env rest2

/-- the matching-`EndLoop` scan of `play` (source lines 489-502) on the
macros after the `Loop` event: track the nesting depth (starting at 1) and
return the relative index of the macro at which the depth reaches zero, or
`none` when the scan exhausts the sequence (`loop_count != 0`). -/
def findEndLoop (depth : Nat) (rest : List MacroItem) (j : Nat) : Option Nat :=
  match rest with
  | [] => none
  | m :: rest2 =>
    let depth2 :=
      if m.active then
        match isArEvent m.command with
        | some (Event.loop _ _ _ _ _ _) => depth + 1
        | some Event.endLoop => depth - 1
        | _ => depth
      else depth
    if depth2 = 0 then some j else findEndLoop depth2 rest2 (j + 1)

/-- the iteration count of `numpy.arange(start, end, step)` over integer
fields of the deprecated `count` loop; a zero step raises. -/
def arangeLen (s e step : Int) : Except PErr Nat :=
  if step = 0 then Except.error PErr.valueError
  else if step > 0 then
    if e ≤ s then Except.ok 0 else Except.ok ((e - s + step - 1) / step).toNat
  else
    if s ≤ e then Except.ok 0 else Except.ok ((s - e + (-step) - 1) / (-step)).toNat

/-- the plain-command branch of the main scan (source lines 572-635): the
recursion guard, the command rewriting, the surface resolution, the region
scan, the `GROUP`/`INDIVIDUAL` execution under the override, the
restoration of a coerced `ui_type` on success, and the exception handler
that sets the alert flags, restores `base_area.ui_type` when a coercion is
pending, and returns the error. -/
def plainExec (env : Env) (st : PState) (m : MacroItem) : PState × Option PErr :=
  match checkGuard m.command with
  | Except.error e => (alertSt st m.id, some e)
  | Except.ok true =>
    (alertSt st m.id,
     some (PErr.msg "Don\x27t run Local Play with default properties, this may cause recursion"))
  | Except.ok false =>
    let cmd := rewriteCommand m.operator_execution_context m.command
    match resolveArea st.world m with
    | Except.error e => (alertSt st m.id, some e)
    | Except.ok (w1, tempArea, areaType) =>
      let tempRegion : Option Region :=
        match tempArea with
        | some a => chooseRegion st.world.region a.regions
        | none => st.world.region
      let st1 := { st with
        world := w1,
        dispatches := st.dispatches ++ [(m.id, tempRegion)] }
      let execRes : World × List Command × Option PErr :=
        if env.executionMode = "GROUP" then
          match env.exec cmd w1 with
          | Except.ok w2 => (w2, [cmd], none)
          | Except.error e => (w1, [cmd], some e)
        else
          execute_individually env w1 cmd
      match execRes with
      | (w2, ex, none) =>
        let w3 :=
          match tempArea, areaType with
          | some _, some t => setAreaUiType w2 t
          | _, _ => w2
        ({ st1 with world := w3, execs := st1.execs ++ ex }, none)
      | (w2, ex, some e) =>
        let w3 :=
          match st.world.area, areaType with
          | some _, some t => setAreaUiType w2 t
          | _, _ => w2
        (alertSt { st1 with world := w3, execs := st1.execs ++ ex } m.id, some e)

/-- one step of the `Objects` selection loop of the `Select Object`
handler (source lines 533-536): select the named object only when it
exists in `bpy.data.objects`. -/
def selStep (wa : World) (nm : String) : World :=
  if wa.dataObjects.contains nm then selectSet true nm wa else wa


/-- the `Timer` event handler (source lines 468-487): register a deferred
continuation over `macros[i + 1:]` with the scheduler.  If this invocation
was itself resumed from a prior timer (`macros_before_timer` truthy, i.e.
neither `None` nor empty), the continuation carries
`macros_before_timer + macros[:(-1 - i)]` as its `macros_before_timer`
(the source comment calls this slice the macros already executed in this
pass); otherwise it carries the whole current slice. -/
def timerRegister (st : PState) (macros rest2 : List MacroItem) (i : Nat)
    (loopingCount : Int) (macrosAfterLoop macrosBeforeTimer : Option (List MacroItem))
    (t : Int) : PState × Option PErr :=
  let timerMacros : List MacroItem :=
    match macrosBeforeTimer with
    | some l => if l.isEmpty then macros else l ++ macros.take (macros.length - 1 - i)
    | none => macros
  ({ st with timers := st.timers ++
      [⟨rest2, loopingCount, macrosAfterLoop, some timerMacros, t⟩] }, none)


mutual

/-- the interpreter `play` (source lines 428-648): filter the given macros
to the active ones, run the non-realtime pre-scan (`preScanStep`), then
run the realtime main scan.  `loopingCount`, `macrosAfterLoop` and
`macrosBeforeTimer` default to `-1`, `None`, `None` at fresh call sites.
The `fuel` parameter bounds the depth of re-entrant `play` calls of the
model (loop restarts, loop bodies, while iterations); running out is the
artificial error `PErr.outOfFuel`.  The stages of the interpreter are
split into one definition per intermediate result (`preScanStep`,
`loopStep`, ...) so that each definition pattern-matches only on a
parameter; they are exactly the corresponding blocks of the source
function. -/
def play (fuel : Nat) (env : Env) (st : PState) (macrosIn : List MacroItem)
    (loopingCount : Int) (macrosAfterLoop : Option (List MacroItem))
    (macrosBeforeTimer : Option (List MacroItem)) : PState × Option PErr :=
  match fuel with
  | 0 => (st, some PErr.outOfFuel)
  | Nat.succ f =>
    preScanStep f env st (macrosIn.filter (fun m => m.active))
      (preScan env (macrosIn.filter (fun m => m.active)))
      loopingCount macrosAfterLoop macrosBeforeTimer
termination_by (fuel, 0)

/-- dispatch on the outcome of the pre-scan (source lines 452-458): an
IndexError from `macros[i + 1]` propagates, a found `Render Complete`
event appends its entry to the render-complete queue, and the realtime
scan starts at index 0 either way. -/
def preScanStep (fuel : Nat) (env : Env) (st : PState) (macros : List MacroItem)
    (r : Except PErr (Option (String × String × String))) (loopingCount : Int)
    (macrosAfterLoop macrosBeforeTimer : Option (List MacroItem)) : PState × Option PErr :=
  match r with
  | Except.error e => (st, some e)
  | Except.ok none =>
    mainScan fuel env st macros macros 0 loopingCount macrosAfterLoop macrosBeforeTimer
  | Except.ok (some entry) =>
    mainScan fuel env { st with rcQueue := st.rcQueue ++ [entry] } macros macros 0
      loopingCount macrosAfterLoop macrosBeforeTimer
termination_by (fuel, 8 * macros.length + 17)

/-- the realtime main scan of `play` (source lines 462-635), processing
`rest = macros.drop i` one macro at a time.  `Render Complete` stops the
pass, `Timer` registers a deferred continuation and returns, `Loop`
hands over to `loopStep` with the position of the matching `EndLoop`,
`EndLoop` is a no-op, `Select Object` edits the selection, `Run Script`
defers to the script oracle (`scriptStep`), and a plain command runs
`plainExec` and continues on success (`execContinue`).  Falling off the
end of the scan runs the loop-restart logic `endOfScan`. -/
def mainScan (fuel : Nat) (env : Env) (st : PState) (macros : List MacroItem)
    (rest : List MacroItem) (i : Nat) (loopingCount : Int)
    (macrosAfterLoop macrosBeforeTimer : Option (List MacroItem)) : PState × Option PErr :=
  match rest with
  | [] => endOfScan fuel env st macros loopingCount macrosAfterLoop macrosBeforeTimer
  | m :: rest2 =>
    match m.command with
    | Command.event Event.renderComplete => (st, none)
    | Command.event (Event.timer t) =>
      timerRegister st macros rest2 i loopingCount macrosAfterLoop macrosBeforeTimer t
    | Command.event (Event.loop stmtT pyStmt startN endN stepN repeatC) =>
      loopStep fuel env st macros m stmtT pyStmt startN endN stepN repeatC rest2 i
        loopingCount macrosAfterLoop macrosBeforeTimer (findEndLoop 1 rest2 0)
    | Command.event Event.endLoop =>
      mainScan fuel env st macros rest2 (i + 1) loopingCount macrosAfterLoop macrosBeforeTimer
    | Command.event (Event.selectObject keep objs objField) =>
      let w1 := if keep then st.world else { st.world with selected := [] }
      let w2 := objs.foldl selStep w1
      if objField = "" then
        mainScan fuel env { st with world := w2 } macros rest2 (i + 1) loopingCount
          macrosAfterLoop macrosBeforeTimer
      else if w2.dataObjects.contains objField && w2.viewLayerObjects.contains objField then
        let w3 := selectSet true objField { w2 with activeObject := some objField }
        mainScan fuel env { st with world := w3 } macros rest2 (i + 1) loopingCount
          macrosAfterLoop macrosBeforeTimer
      else
        (alertSt { st with world := w2 } m.id,
         some (PErr.msg (objField ++ " Object doesn\x27t exist in the active view layer")))
    | Command.event (Event.runScript txt) =>
      scriptStep fuel env st (env.scriptRun txt) m macros rest2 i loopingCount
        macrosAfterLoop macrosBeforeTimer
    | Command.plain _ =>
      execContinue fuel env (plainExec env st m) macros rest2 i loopingCount
        macrosAfterLoop macrosBeforeTimer
termination_by (fuel, 8 * rest.length + 8)

/-- the `Loop` event handler (source lines 488-524), given the result of
the matching-`EndLoop` scan: an unmatched `Loop` (`none`, i.e.
`loop_count != 0`) is skipped by `continue`; otherwise the body slice is
`macros[i + 1 : end_index]` and the handler dispatches on the statement
type: `python` runs the while-loop form, `count` the deprecated
`numpy.arange` form (both falling through to the plain execution of the
`Loop` macro itself afterwards — the source lacks a `continue`), and any
other statement type re-invokes `play` on the body with
`loopCount = RepeatCount` and `macrosAfterLoop = macros[end_index + 1:]`,
preserving `macrosBeforeTimer`. -/
def loopStep (fuel : Nat) (env : Env) (st : PState) (macros : List MacroItem)
    (m : MacroItem) (stmtT pyStmt : String) (startN endN stepN repeatC : Int)
    (rest2 : List MacroItem) (i : Nat) (loopingCount : Int)
    (macrosAfterLoop macrosBeforeTimer : Option (List MacroItem))
    (rOpt : Option Nat) : PState × Option PErr :=
  match rOpt with
  | none =>
    mainScan fuel env st macros rest2 (i + 1) loopingCount macrosAfterLoop macrosBeforeTimer
  | some j =>
    if stmtT = "python" then
      pyContinue fuel env (pyWhile fuel env st (rest2.take j) pyStmt) m macros rest2 i
        loopingCount macrosAfterLoop macrosBeforeTimer
    else if stmtT = "count" then
      arangeStep fuel env st (arangeLen startN endN stepN) (rest2.take j) m macros rest2 i
        loopingCount macrosAfterLoop macrosBeforeTimer
    else
      play fuel env st (rest2.take j) repeatC (some (rest2.drop (j + 1))) macrosBeforeTimer
termination_by (fuel, 8 * rest2.length + 15)

/-- continuation after the `python` while-loop form (source lines
508-514): a raised error sets the alert flags and propagates; otherwise
control falls through (missing `continue`) to the plain execution of the
`Loop` macro itself and then the scan resumes. -/
def pyContinue (fuel : Nat) (env : Env) (r : PState × Option PErr) (m : MacroItem)
    (macros : List MacroItem) (rest2 : List MacroItem) (i : Nat) (loopingCount : Int)
    (macrosAfterLoop macrosBeforeTimer : Option (List MacroItem)) : PState × Option PErr :=
  match r with
  | (st2, some e) => (alertSt st2 m.id, some e)
  | (st2, none) =>
    execContinue fuel env (plainExec env st2 m) macros rest2 i loopingCount
      macrosAfterLoop macrosBeforeTimer
termination_by (fuel, 8 * rest2.length + 13)

/-- dispatch on `numpy.arange` for the deprecated `count` loop form
(source lines 515-520): a raised error propagates without alert flags;
otherwise the body plays once per step and control falls through
(missing `continue`) to the plain execution of the `Loop` macro. -/
def arangeStep (fuel : Nat) (env : Env) (st : PState) (r : Except PErr Nat)
    (body : List MacroItem) (m : MacroItem) (macros : List MacroItem)
    (rest2 : List MacroItem) (i : Nat) (loopingCount : Int)
    (macrosAfterLoop macrosBeforeTimer : Option (List MacroItem)) : PState × Option PErr :=
  match r with
  | Except.error e => (st, some e)
  | Except.ok n =>
    cntContinue fuel env (countLoop fuel env st body n) m macros rest2 i loopingCount
      macrosAfterLoop macrosBeforeTimer
termination_by (fuel, 8 * rest2.length + 14)

/-- continuation after the `count` loop form: an error returned by an
iteration propagates; otherwise control falls through (missing
`continue`) to the plain execution of the `Loop` macro itself. -/
def cntContinue (fuel : Nat) (env : Env) (r : PState × Option PErr) (m : MacroItem)
    (macros : List MacroItem) (rest2 : List MacroItem) (i : Nat) (loopingCount : Int)
    (macrosAfterLoop macrosBeforeTimer : Option (List MacroItem)) : PState × Option PErr :=
  match r with
  | (st2, some e) => (st2, some e)
  | (st2, none) =>
    execContinue fuel env (plainExec env st2 m) macros rest2 i loopingCount
      macrosAfterLoop macrosBeforeTimer
termination_by (fuel, 8 * rest2.length + 12)

/-- dispatch on the `Run Script` oracle (source lines 551-569): success
continues the scan, an execution error sets the alert flags and
propagates the reformatted error. -/
def scriptStep (fuel : Nat) (env : Env) (st : PState) (r : Option String)
    (m : MacroItem) (macros : List MacroItem) (rest2 : List MacroItem) (i : Nat)
    (loopingCount : Int) (macrosAfterLoop macrosBeforeTimer : Option (List MacroItem)) :
    PState × Option PErr :=
  match r with
  | none =>
    mainScan fuel env st macros rest2 (i + 1) loopingCount macrosAfterLoop macrosBeforeTimer
  | some er => (alertSt st m.id, some (PErr.scriptError er))
termination_by (fuel, 8 * rest2.length + 11)

/-- continuation after one plain-command step: an error from `plainExec`
aborts the pass, success moves the scan to the next macro. -/
def execContinue (fuel : Nat) (env : Env) (r : PState × Option PErr)
    (macros : List MacroItem) (rest2 : List MacroItem) (i : Nat) (loopingCount : Int)
    (macrosAfterLoop macrosBeforeTimer : Option (List MacroItem)) : PState × Option PErr :=
  match r with
  | (st2, some e) => (st2, some e)
  | (st2, none) =>
    mainScan fuel env st2 macros rest2 (i + 1) loopingCount macrosAfterLoop macrosBeforeTimer
termination_by (fuel, 8 * rest2.length + 10)

/-- the loop-restart logic at the bottom of `play` (source lines 637-648):
decrement `looping_count`; while still positive, restart over the original
slice (`macros_before_timer` when it is not `None`, else the current
filtered macros); at exactly zero, play `macros_after_loop` with fresh
defaults (`play(None, ...)` would iterate `None`, raising TypeError);
otherwise return with no error. -/
def endOfScan (fuel : Nat) (env : Env) (st : PState) (macros : List MacroItem)
    (loopingCount : Int) (macrosAfterLoop macrosBeforeTimer : Option (List MacroItem)) :
    PState × Option PErr :=
  if loopingCount - 1 > 0 then
    let loopMacros :=
      match macrosBeforeTimer with
      | none => macros
      | some l => l
    play fuel env st loopMacros (loopingCount - 1) macrosAfterLoop none
  else if loopingCount - 1 = 0 then
    match macrosAfterLoop with
    | none => (st, some PErr.typeError)
    | some l => play fuel env st l (-1) none none
  else (st, none)
termination_by (fuel, 1)

/-- the `python` loop form (source lines 508-514): repeatedly `eval` the
predicate (`pyEvalStep`) and, while it is true, play the loop body as a
self-contained call whose returned error is discarded (the source ignores
the return value of the recursive `play`).  Each iteration consumes one
fuel. -/
def pyWhile (fuel : Nat) (env : Env) (st : PState) (body : List MacroItem)
    (stmt : String) : PState × Option PErr :=
  match fuel with
  | 0 => (st, some PErr.outOfFuel)
  | Nat.succ f => pyEvalStep f env (env.pyEval stmt st.world) st body stmt
termination_by (fuel, 2)

/-- dispatch on one `eval` of the while predicate: an exception from
`eval` propagates (to the handler that sets the alert flags), `False`
ends the loop, `True` plays the body and iterates. -/
def pyEvalStep (fuel : Nat) (env : Env) (r : Except PErr Bool) (st : PState)
    (body : List MacroItem) (stmt : String) : PState × Option PErr :=
  match r with
  | Except.error e => (st, some e)
  | Except.ok false => (st, none)
  | Except.ok true =>
    pyWhile fuel env (play fuel env st body (-1) none none).1 body stmt
termination_by (fuel, 3)

/-- the deprecated `count` loop form (source lines 515-520): play the body
once per `numpy.arange` step, aborting on the first returned error.
Each iteration consumes one fuel. -/
def countLoop (fuel : Nat) (env : Env) (st : PState) (body : List MacroItem)
    (n : Nat) : PState × Option PErr :=
  match fuel with
  | 0 => (st, some PErr.outOfFuel)
  | Nat.succ f =>
    match n with
    | 0 => (st, none)
    | Nat.succ k => cntIter f env (play f env st body (-1) none none) body k
termination_by (fuel, 2)

/-- continuation after one `count` iteration: abort on the first returned
error, else keep iterating. -/
def cntIter (fuel : Nat) (env : Env) (r : PState × Option PErr)
    (body : List MacroItem) (k : Nat) : PState × Option PErr :=
  match r with
  | (st2, some e) => (st2, some e)
  | (st2, none) => countLoop fuel env st2 body k
termination_by (fuel, 3)

end

/-- an action as seen by the render-complete drain: its `id` and its
macro collection. -/
structure RCAction where
  id : String
  macros : List MacroItem
deriving Repr, DecidableEq

/-- the addon preferences as seen by the drain: the two action
collections reachable via `getattr(ActRec_pref, action_type)`. -/
structure ActRecPrefs where
  global_actions : List RCAction
  local_actions : List RCAction
deriving Repr, DecidableEq

/-- `getattr(ActRec_pref, action_type)`: an unknown attribute name raises
AttributeError. -/
def prefsGetAttr (p : ActRecPrefs) (t : String) : Except PErr (List RCAction) :=
  if t = "global_actions" then Except.ok p.global_actions
  else if t = "local_actions" then Except.ok p.local_actions
  else Except.error PErr.attributeError

/-- Blender `CollectionProperty.find`: the index of the keyed element, or
`-1` when the key is absent. -/
def collectionFind (macros : List MacroItem) (key : String) : Int :=
  match macros.findIdx? (fun m => m.id = key) with
  | some idx => (idx : Int)
  | none => -1

/-- source `execute_render_complete` (lines 651-678): pop queue entries in
FIFO order; resolve the action collection by `action_type` and the action
by id — Blender collection indexing with a missing key raises KeyError;
a missing resume-macro id (`find < 0`) skips the entry silently; otherwise
the source evaluates `action.macros[start:]` where the name `start` is
undefined (the computed index is bound to `start_index`), raising
NameError before any timer is registered.  Returns the remaining queue and
the first raised exception, if any. -/
def execute_render_complete (prefs : ActRecPrefs)
    (queue : List (String × String × String)) :
    List (String × String × String) × Option PErr :=
  match queue with
  | [] => ([], none)
  | entry :: rest =>
    match prefsGetAttr prefs entry.1 with
    | Except.error e => (rest, some e)
    | Except.ok actions =>
      match actions.find? (fun a => a.id = entry.2.1) with
      | none => (rest, some PErr.keyError)
      | some action =>
        if collectionFind action.macros entry.2.2 < 0 then
          execute_render_complete prefs rest
        else
          (rest, some PErr.nameError)

/-! ## Helper predicates and lemmas for the playback theorems -/

/-- a macro whose command is plain (no `ar.event:` tag), does not trip the
local-play recursion guard, and declares no `ui_type` requirement. -/
def NiceMacro (m : MacroItem) : Prop :=
  (∃ s, m.command = Command.plain s) ∧
  checkGuard m.command = Except.ok false ∧ m.ui_type = ""

/-- the `exec` oracle succeeds on every command and world. -/
def ExecTotal (env : Env) : Prop :=
  ∀ c w, ∃ w2, env.exec c w = Except.ok w2

/-- `st2` extends `st` by dispatching exactly the macros `ids` (in order),
registering no timer, no render-complete entry and no alert. -/
def StExt (st st2 : PState) (ids : List String) : Prop :=
  st2.dispatches.map Prod.fst = st.dispatches.map Prod.fst ++ ids ∧
  st2.timers = st.timers ∧ st2.rcQueue = st.rcQueue ∧
  st2.actionAlert = st.actionAlert ∧ st2.alertMacros = st.alertMacros

theorem StExt_refl (st : PState) : StExt st st [] := by
  simp [StExt]

theorem StExt_trans {st st2 st3 : PState} {xs ys : List String}
    (h1 : StExt st st2 xs) (h2 : StExt st2 st3 ys) : StExt st st3 (xs ++ ys) := by
  obtain ⟨a1, b1, c1, d1, e1⟩ := h1
  obtain ⟨a2, b2, c2, d2, e2⟩ := h2
  refine ⟨?_, by rw [b2, b1], by rw [c2, c1], by rw [d2, d1], by rw [e2, e1]⟩
  rw [a2, a1, List.append_assoc]

theorem preScan_of_noRC (env : Env) (rest : List MacroItem)
    (h : ∀ m ∈ rest, m.command ≠ Command.event Event.renderComplete) :
    preScan env rest = Except.ok none := by
  induction rest with
  | nil => rfl
  | cons m rest2 ih =>
    have hm := h m (by simp)
    have ih2 := ih (fun x hx => h x (by simp [hx]))
    cases hc : m.command with
    | plain s => simp [preScan, isArEvent, hc, ih2]
    | event e => cases e <;> simp_all [preScan, isArEvent]

theorem resolveArea_noUi (w : World) (m : MacroItem) (hui : m.ui_type = "") :
    resolveArea w m = Except.ok (w, w.area, none) := by
  cases ha : w.area with
  | none => simp [resolveArea, ha]
  | some a => simp [resolveArea, ha, hui]

theorem execIndLoop_total (env : Env) (cmd : Command)
    (hexec : ∀ w1, ∃ w2, env.exec cmd w1 = Except.ok w2) :
    ∀ (objs : List String) (w : World),
      ∃ w2 ex, execIndLoop env w objs cmd = (w2, ex, none) := by
  intro objs
  induction objs with
  | nil => exact fun w => ⟨w, [], rfl⟩
  | cons o rest ih =>
    intro w
    obtain ⟨wc, he⟩ := hexec { selectSet true o w with activeObject := some o }
    obtain ⟨w3, ex, hrec⟩ := ih (selectSet false o wc)
    exact ⟨w3, cmd :: ex, by simp [execIndLoop, he, hrec]⟩

theorem execute_individually_total (env : Env) (w : World) (cmd : Command)
    (hexec : ∀ w1, ∃ w2, env.exec cmd w1 = Except.ok w2) :
    ∃ w2 ex, execute_individually env w cmd = (w2, ex, none) := by
  obtain ⟨w2, ex, h⟩ :=
    execIndLoop_total env cmd hexec w.selected
      (w.selected.foldl (fun wa n => selectSet false n wa) w)
  exact ⟨_, ex, by rw [execute_individually, h]⟩

theorem plainExec_nice (env : Env) (st : PState) (m : MacroItem)
    (hm : NiceMacro m) (hexec : ExecTotal env) :
    ∃ st2, plainExec env st m = (st2, none) ∧ StExt st st2 [m.id] := by
  obtain ⟨⟨s, hs⟩, hguard, hui⟩ := hm
  have hra := resolveArea_noUi st.world m hui
  by_cases hmode : env.executionMode = "GROUP"
  · obtain ⟨w2, he⟩ := hexec (rewriteCommand m.operator_execution_context m.command) st.world
    cases ha : st.world.area with
    | none =>
      refine ⟨{ st with
          world := w2,
          dispatches := st.dispatches ++ [(m.id, st.world.region)],
          execs := st.execs ++ [rewriteCommand m.operator_execution_context m.command] },
        by simp [plainExec, hguard, hra, hmode, he, ha], by simp [StExt]⟩
    | some a =>
      refine ⟨{ st with
          world := w2,
          dispatches := st.dispatches ++ [(m.id, chooseRegion st.world.region a.regions)],
          execs := st.execs ++ [rewriteCommand m.operator_execution_context m.command] },
        by simp [plainExec, hguard, hra, hmode, he, ha], by simp [StExt]⟩
  · obtain ⟨w2, ex, he⟩ :=
      execute_individually_total env st.world
        (rewriteCommand m.operator_execution_context m.command)
        (fun w1 => hexec _ w1)
    cases ha : st.world.area with
    | none =>
      refine ⟨{ st with
          world := w2,
          dispatches := st.dispatches ++ [(m.id, st.world.region)],
          execs := st.execs ++ ex },
        by simp [plainExec, hguard, hra, hmode, he, ha], by simp [StExt]⟩
    | some a =>
      refine ⟨{ st with
          world := w2,
          dispatches := st.dispatches ++ [(m.id, chooseRegion st.world.region a.regions)],
          execs := st.execs ++ ex },
        by simp [plainExec, hguard, hra, hmode, he, ha], by simp [StExt]⟩

/-- the loop-restart logic vanishes for the default `looping_count = -1`. -/
theorem endOfScan_neg (fuel : Nat) (env : Env) (st : PState) (macros : List MacroItem)
    (mal mbt : Option (List MacroItem)) :
    endOfScan fuel env st macros (-1) mal mbt = (st, none) := by
  rw [endOfScan.eq_def]
  norm_num

theorem mainScan_nice (env : Env) (hexec : ExecTotal env) :
    ∀ (rest : List MacroItem), (∀ m ∈ rest, NiceMacro m) →
    ∀ (f : Nat) (st : PState) (macros : List MacroItem) (i : Nat) (lc : Int)
      (mal mbt : Option (List MacroItem)),
    ∃ st2, mainScan f env st macros rest i lc mal mbt =
        endOfScan f env st2 macros lc mal mbt ∧
      StExt st st2 (rest.map MacroItem.id) := by
  intro rest
  induction rest with
  | nil =>
    intro _ f st macros i lc mal mbt
    exact ⟨st, by rw [mainScan.eq_def], StExt_refl st⟩
  | cons m rest2 ih =>
    intro h f st macros i lc mal mbt
    obtain ⟨⟨s, hs⟩, _, _⟩ := h m (by simp)
    obtain ⟨stA, hpe, hextA⟩ := plainExec_nice env st m (h m (by simp)) hexec
    obtain ⟨stB, hms, hextB⟩ :=
      ih (fun x hx => h x (by simp [hx])) f stA macros (i + 1) lc mal mbt
    refine ⟨stB, ?_, by simpa using StExt_trans hextA hextB⟩
    rw [mainScan.eq_def]
    simp only [hs, hpe, execContinue]
    exact hms

theorem play_nice (env : Env) (hexec : ExecTotal env) (macrosIn : List MacroItem)
    (h : ∀ m ∈ macrosIn.filter (fun m => m.active), NiceMacro m)
    (f : Nat) (st : PState) :
    ∃ st2,
      play (f + 1) env st macrosIn (-1) none none = (st2, none) ∧
      StExt st st2 ((macrosIn.filter (fun m => m.active)).map MacroItem.id) := by
  obtain ⟨st2, hms, hext⟩ :=
    mainScan_nice env hexec _ h f st (macrosIn.filter (fun m => m.active)) 0 (-1) none none
  have hpre : preScan env (macrosIn.filter (fun m => m.active)) = Except.ok none :=
    preScan_of_noRC _ _ (fun m hm => by
      obtain ⟨⟨s, hs⟩, _, _⟩ := h m hm
      simp [hs])
  refine ⟨st2, ?_, hext⟩
  rw [play]
  simp only [hpre, preScanStep]
  rw [hms, endOfScan_neg]


/-! ## Concrete data used by witnesses and counterexamples -/

/-- a small ambient world: two objects, both in the view layer, one
selected and active; no area/region/window overrides. -/
def demoWorld : World :=
  { dataObjects := ["Cube", "Lamp"], viewLayerObjects := ["Cube", "Lamp"],
    selected := ["Cube"], activeObject := some "Cube",
    area := none, region := none, windows := [] }

/-- an environment whose `exec` oracle always succeeds and leaves the
world unchanged, whose `eval` oracle returns `False`, and whose scripts
run cleanly. -/
def okEnv : Env :=
  { actionId := "action1", actionType := "global_actions", executionMode := "GROUP",
    exec := fun _ w => Except.ok w,
    pyEval := fun _ _ => Except.ok false,
    scriptRun := fun _ => none }

theorem okEnv_total : ExecTotal okEnv := fun _ w => ⟨w, rfl⟩

/-! ## Claim C1 -/

/-- Claim C1: for every macro sequence containing no pseudo-events, `play`
invokes each macro with `active = true` exactly once, in the order they
appear in the sequence, and never invokes a macro with `active = false`.
Stated under the ambient assumptions of the spec: the commands execute
without error (`ExecTotal`), none of them trips the local-play recursion
guard, and none declares a `ui_type` requirement; macro ids are unique
within the sequence. -/
theorem C1_plain_sequence_each_active_once (env : Env) (w : World)
    (macrosIn : List MacroItem) (f : Nat)
    (hplain : ∀ m ∈ macrosIn, ∃ s, m.command = Command.plain s)
    (hguard : ∀ m ∈ macrosIn, checkGuard m.command = Except.ok false)
    (hui : ∀ m ∈ macrosIn, m.ui_type = "")
    (hids : (macrosIn.map MacroItem.id).Nodup)
    (hexec : ExecTotal env) :
    ∃ st2, play (f + 1) env (initState w) macrosIn (-1) none none = (st2, none) ∧
      st2.dispatches.map Prod.fst = (macrosIn.filter (fun m => m.active)).map MacroItem.id ∧
      ∀ m ∈ macrosIn, m.active = false → m.id ∉ st2.dispatches.map Prod.fst := by
  obtain ⟨st2, hp, hext⟩ :=
    play_nice env hexec macrosIn
      (fun m hm =>
        ⟨hplain m (List.mem_of_mem_filter hm), hguard m (List.mem_of_mem_filter hm),
         hui m (List.mem_of_mem_filter hm)⟩) f (initState w)
  have hdisp : st2.dispatches.map Prod.fst =
      (macrosIn.filter (fun m => m.active)).map MacroItem.id := by
    have := hext.1
    simpa [initState] using this
  refine ⟨st2, hp, hdisp, ?_⟩
  intro m hm hact hmem
  rw [hdisp] at hmem
  obtain ⟨m2, hm2, hid⟩ := List.mem_map.mp hmem
  have hm2mem : m2 ∈ macrosIn := List.mem_of_mem_filter hm2
  have hm2act : m2.active = true := by
    have := List.mem_filter.mp hm2
    simpa using this.2
  have : m2 = m := List.inj_on_of_nodup_map hids hm2mem hm hid
  rw [this] at hm2act
  rw [hact] at hm2act
  exact Bool.false_ne_true hm2act

def c1m1 : MacroItem := ⟨"m1", Command.plain "a()", true, "EXEC_DEFAULT", ""⟩

def c1m2 : MacroItem := ⟨"m2", Command.plain "b()", false, "EXEC_DEFAULT", ""⟩

def c1m3 : MacroItem := ⟨"m3", Command.plain "c()", true, "EXEC_DEFAULT", ""⟩

/-- witness for C1 at a concrete three-macro sequence with one inactive
macro. -/
theorem C1_witness :
    ∃ st2, play (0 + 1) okEnv (initState demoWorld) [c1m1, c1m2, c1m3] (-1) none none =
        (st2, none) ∧
      st2.dispatches.map Prod.fst =
        (([c1m1, c1m2, c1m3].filter (fun m => m.active)).map MacroItem.id) ∧
      ∀ m ∈ [c1m1, c1m2, c1m3], m.active = false →
        m.id ∉ st2.dispatches.map Prod.fst :=
  C1_plain_sequence_each_active_once okEnv demoWorld [c1m1, c1m2, c1m3] 0
    (by intro m hm; fin_cases hm <;> exact ⟨_, rfl⟩)
    (by intro m hm; fin_cases hm <;> rfl)
    (by intro m hm; fin_cases hm <;> rfl)
    (by decide)
    okEnv_total

/-! ## Claim C10 -/

theorem preScan_lastRC (env : Env) :
    ∀ (pre : List MacroItem) (rcM : MacroItem),
    (∀ m ∈ pre, m.command ≠ Command.event Event.renderComplete) →
    rcM.command = Command.event Event.renderComplete →
    preScan env (pre ++ [rcM]) = Except.error PErr.indexError := by
  intro pre
  induction pre with
  | nil =>
    intro rcM _ hrc
    simp [preScan, isArEvent, hrc]
  | cons m pre2 ih =>
    intro rcM h hrc
    have hm := h m (by simp)
    have ih2 := ih rcM (fun x hx => h x (by simp [hx])) hrc
    cases hc : m.command with
    | plain s => simp [preScan, isArEvent, hc, ih2]
    | event e => cases e <;> simp_all [preScan, isArEvent]

/-- Claim C10 (amended): for every macro sequence whose first active
`Render Complete` event is its last active macro, the pre-scan at the top
of `play` evaluates `macros[i + 1].id` with `i + 1` past the end of the
filtered sequence, so `play` fails with an out-of-bounds index error
before executing any macro (the state is returned untouched); the
pre-scan registration is only well-defined when at least one active macro
follows the first `Render Complete` event. -/
theorem C10_first_rc_last_index_error (env : Env) (st : PState)
    (macrosIn : List MacroItem) (f : Nat) (pre : List MacroItem) (rcM : MacroItem)
    (hsplit : macrosIn.filter (fun m => m.active) = pre ++ [rcM])
    (hpre : ∀ m ∈ pre, m.command ≠ Command.event Event.renderComplete)
    (hrc : rcM.command = Command.event Event.renderComplete) :
    play (f + 1) env st macrosIn (-1) none none = (st, some PErr.indexError) := by
  rw [play, hsplit, preScan_lastRC env pre rcM hpre hrc]
  simp [preScanStep]

def c10plain : MacroItem := ⟨"p1", Command.plain "a()", true, "EXEC_DEFAULT", ""⟩

def c10rcLast : MacroItem := ⟨"rcL", Command.event Event.renderComplete, true, "EXEC_DEFAULT", ""⟩

/-- witness for the amended C10: a plain macro followed by a trailing
`Render Complete` event crashes the pre-scan. -/
theorem C10_witness :
    play (0 + 1) okEnv (initState demoWorld) [c10plain, c10rcLast] (-1) none none =
      (initState demoWorld, some PErr.indexError) :=
  C10_first_rc_last_index_error okEnv (initState demoWorld) [c10plain, c10rcLast] 0
    [c10plain] c10rcLast rfl
    (by intro m hm; fin_cases hm; simp [c10plain])
    rfl

def c10rc1 : MacroItem := ⟨"rc1", Command.event Event.renderComplete, true, "EXEC_DEFAULT", ""⟩

def c10rc2 : MacroItem := ⟨"rc2", Command.event Event.renderComplete, true, "EXEC_DEFAULT", ""⟩

/-- counterexample to C10 as stated: in the sequence `[rc1, rc2]` the last
active macro is a `Render Complete` event, yet the pre-scan stops at the
first `Render Complete` (whose successor exists), registers it, and `play`
returns with no error instead of failing with an index error. -/
theorem C10_counterexample :
    (play 3 okEnv (initState demoWorld) [c10rc1, c10rc2] (-1) none none).2 = none ∧
    (play 3 okEnv (initState demoWorld) [c10rc1, c10rc2] (-1) none none).2 ≠
      some PErr.indexError := by
  have h : play 3 okEnv (initState demoWorld) [c10rc1, c10rc2] (-1) none none =
      ({ initState demoWorld with
          rcQueue := [("global_actions", "action1", "rc2")] }, none) := by
    rw [play]
    simp only [preScan, preScanStep, isArEvent, c10rc1, c10rc2, okEnv, List.filter]
    rw [mainScan.eq_def]
    simp [initState, demoWorld]
  rw [h]
  simp

/-! ## Claim C5 -/

theorem findEndLoop_none_of_plain :
    ∀ (rest : List MacroItem), (∀ m ∈ rest, ∃ s, m.command = Command.plain s) →
    ∀ (d j : Nat), d ≠ 0 → findEndLoop d rest j = none := by
  intro rest
  induction rest with
  | nil => intro _ d j _; rfl
  | cons m rest2 ih =>
    intro h d j hd
    obtain ⟨s, hs⟩ := h m (by simp)
    have ih2 := ih (fun x hx => h x (by simp [hx])) d (j + 1) hd
    simp [findEndLoop, isArEvent, hs, hd, ih2]

/-- Claim C5 (amended): a `Loop` event with no matching `EndLoop` anywhere
after it is skipped as a no-op by the `continue` branch
(`loop_count != 0`), and the macros after the unmatched `Loop` execute
once each as the ordinary continuation of the main scan; the default
`end_index` is never used to slice a body. -/
theorem C5_unmatched_loop_skipped (env : Env) (w : World) (f : Nat)
    (loopM : MacroItem) (rest : List MacroItem)
    (stmtT pyStmt : String) (a b c rc : Int)
    (hl : loopM.command = Command.event (Event.loop stmtT pyStmt a b c rc))
    (hlact : loopM.active = true)
    (hrest : ∀ m ∈ rest, NiceMacro m)
    (hrestact : ∀ m ∈ rest, m.active = true)
    (hexec : ExecTotal env) :
    ∃ st2, play (f + 1) env (initState w) (loopM :: rest) (-1) none none = (st2, none) ∧
      st2.dispatches.map Prod.fst = rest.map MacroItem.id := by
  have hfilter : (loopM :: rest).filter (fun m => m.active) = loopM :: rest := by
    rw [List.filter_eq_self]
    intro m hm
    rcases List.mem_cons.mp hm with h1 | h2
    · rw [h1]; simp [hlact]
    · simp [hrestact m h2]
  have hpre : preScan env (loopM :: rest) = Except.ok none := by
    apply preScan_of_noRC
    intro m hm
    rcases List.mem_cons.mp hm with h1 | h2
    · rw [h1, hl]; simp
    · obtain ⟨⟨s, hs⟩, _, _⟩ := hrest m h2
      simp [hs]
  have hfel : findEndLoop 1 rest 0 = none :=
    findEndLoop_none_of_plain rest (fun m hm => (hrest m hm).1) 1 0 (by decide)
  obtain ⟨st2, hms, hext⟩ :=
    mainScan_nice env hexec rest hrest f (initState w) (loopM :: rest) 1 (-1) none none
  refine ⟨st2, ?_, ?_⟩
  · rw [play, hfilter, hpre]
    simp only [preScanStep]
    rw [mainScan.eq_def]
    simp only [hl]
    rw [loopStep.eq_def, hfel]
    simp only []
    rw [hms, endOfScan_neg]
  · have := hext.1
    simpa [initState] using this

def c5loop : MacroItem :=
  ⟨"loop1", Command.event (Event.loop "" "" 0 0 0 2), true, "EXEC_DEFAULT", ""⟩

def c5a : MacroItem := ⟨"a1", Command.plain "a()", true, "EXEC_DEFAULT", ""⟩

/-- witness for the amended C5: an unmatched counted `Loop` followed by
one plain macro; the plain macro runs exactly once. -/
theorem C5_witness :
    ∃ st2, play (0 + 1) okEnv (initState demoWorld) [c5loop, c5a] (-1) none none =
        (st2, none) ∧
      st2.dispatches.map Prod.fst = [c5a].map MacroItem.id :=
  C5_unmatched_loop_skipped okEnv demoWorld 0 c5loop [c5a] "" "" 0 0 0 2 rfl rfl
    (by intro m hm; fin_cases hm; exact ⟨⟨_, rfl⟩, rfl, rfl⟩)
    (by intro m hm; fin_cases hm; rfl)
    okEnv_total

/-- counterexample to C5 as stated: with macros `[Loop(RepeatCount = 2),
a]` the `Loop` has no matching `EndLoop`, and the macro after it is
dispatched exactly once by the ordinary continuation of the main scan —
it is not consumed as a loop body (which for the counted form
`RepeatCount = 2` would dispatch it twice, and with the claimed default
`end_index` body slice would not dispatch it at all). -/
theorem C5_counterexample :
    (play 2 okEnv (initState demoWorld) [c5loop, c5a] (-1) none none).1.dispatches.map
        Prod.fst = ["a1"] ∧
    (play 2 okEnv (initState demoWorld) [c5loop, c5a] (-1) none none).1.dispatches.map
        Prod.fst ≠ ["a1", "a1"] ∧
    (play 2 okEnv (initState demoWorld) [c5loop, c5a] (-1) none none).1.dispatches.map
        Prod.fst ≠ [] := by
  have h : (play 2 okEnv (initState demoWorld) [c5loop, c5a] (-1) none none).1.dispatches.map
      Prod.fst = ["a1"] := by
    rw [play]
    rw [show List.filter (fun m => m.active) [c5loop, c5a] = [c5loop, c5a] from rfl]
    rw [show preScan okEnv [c5loop, c5a] = Except.ok none from rfl]
    simp only [preScanStep]
    rw [mainScan.eq_def]
    simp only [show c5loop.command = Command.event (Event.loop "" "" 0 0 0 2) from rfl]
    rw [show findEndLoop 1 [c5a] 0 = none from rfl]
    rw [loopStep.eq_def]
    simp only []
    rw [mainScan.eq_def]
    simp only [show c5a.command = Command.plain "a()" from rfl]
    rw [show plainExec okEnv (initState demoWorld) c5a =
        ((plainExec okEnv (initState demoWorld) c5a).1, none) from rfl]
    simp only [execContinue]
    rw [mainScan.eq_def]
    rw [endOfScan_neg]
    decide
  exact ⟨h, by rw [h]; simp, by rw [h]; simp⟩

/-! ## Claim C6 -/

theorem selectSet_true_dataObjects (o : String) (w : World) :
    (selectSet true o w).dataObjects = w.dataObjects := by
  simp only [selectSet, if_true]
  split <;> rfl

theorem selectSet_true_viewLayer (o : String) (w : World) :
    (selectSet true o w).viewLayerObjects = w.viewLayerObjects := by
  simp only [selectSet, if_true]
  split <;> rfl

theorem selectSet_true_mono (o x : String) (w : World) (hx : x ∈ w.selected) :
    x ∈ (selectSet true o w).selected := by
  simp only [selectSet, if_true]
  split
  · exact hx
  · simp [hx]

theorem selectSet_true_self (o : String) (w : World) :
    o ∈ (selectSet true o w).selected := by
  simp only [selectSet, if_true]
  split
  · next hsel => simpa using hsel
  · simp

theorem selStep_dataObjects (w : World) (nm : String) :
    (selStep w nm).dataObjects = w.dataObjects := by
  rw [selStep]
  split
  · exact selectSet_true_dataObjects nm w
  · rfl

theorem selStep_viewLayer (w : World) (nm : String) :
    (selStep w nm).viewLayerObjects = w.viewLayerObjects := by
  rw [selStep]
  split
  · exact selectSet_true_viewLayer nm w
  · rfl

theorem selStep_mono (w : World) (nm x : String) (hx : x ∈ w.selected) :
    x ∈ (selStep w nm).selected := by
  rw [selStep]
  split
  · exact selectSet_true_mono nm x w hx
  · exact hx

theorem selFold_world_fields :
    ∀ (objs : List String) (w0 : World),
      (objs.foldl selStep w0).dataObjects = w0.dataObjects ∧
      (objs.foldl selStep w0).viewLayerObjects = w0.viewLayerObjects := by
  intro objs
  induction objs with
  | nil => exact fun w0 => ⟨rfl, rfl⟩
  | cons o rest ih =>
    intro w0
    obtain ⟨h1, h2⟩ := ih (selStep w0 o)
    rw [List.foldl_cons]
    exact ⟨by rw [h1, selStep_dataObjects], by rw [h2, selStep_viewLayer]⟩

theorem selFold_selected_mono :
    ∀ (objs : List String) (w0 : World) (x : String), x ∈ w0.selected →
      x ∈ (objs.foldl selStep w0).selected := by
  intro objs
  induction objs with
  | nil => exact fun w0 x h => h
  | cons o rest ih =>
    intro w0 x hx
    rw [List.foldl_cons]
    exact ih (selStep w0 o) x (selStep_mono w0 o x hx)

theorem selFold_mem :
    ∀ (objs : List String) (w0 : World) (o : String), o ∈ objs → o ∈ w0.dataObjects →
      o ∈ (objs.foldl selStep w0).selected := by
  intro objs
  induction objs with
  | nil => intro w0 o h; exact absurd h (List.not_mem_nil o)
  | cons o2 rest ih =>
    intro w0 o hmem hdata
    rw [List.foldl_cons]
    rcases List.mem_cons.mp hmem with h1 | h2
    · subst h1
      apply selFold_selected_mono
      rw [selStep]
      rw [if_pos (by simpa using hdata)]
      exact selectSet_true_self o w0
    · exact ih (selStep w0 o2) o h2 (by rw [selStep_dataObjects]; exact hdata)

/-- Claim C6: for every `Select Object` event whose `Object` field names
an object that does not exist in the active view layer (either absent
from `bpy.data.objects` or not in the view layer), `play` returns a
failure string containing that object's name, sets the alert flag on both
the action and the triggering macro, halts the pass (nothing is
dispatched, no timer is registered), and every existing object named in
the `Objects` list has already been selected. -/
theorem C6_select_object_missing (env : Env) (w : World) (f : Nat) (m : MacroItem)
    (keep : Bool) (objs : List String) (objField : String) (rest : List MacroItem)
    (hm : m.command = Command.event (Event.selectObject keep objs objField))
    (hact : m.active = true)
    (hne : objField ≠ "")
    (hmiss : (w.dataObjects.contains objField && w.viewLayerObjects.contains objField) = false)
    (hrest : ∀ m2 ∈ rest, m2.command ≠ Command.event Event.renderComplete) :
    ∃ st2, play (f + 1) env (initState w) (m :: rest) (-1) none none =
        (st2, some (PErr.msg (objField ++ " Object doesn\x27t exist in the active view layer"))) ∧
      st2.actionAlert = true ∧ m.id ∈ st2.alertMacros ∧
      st2.dispatches = [] ∧ st2.timers = [] ∧ st2.rcQueue = [] ∧
      (∀ o ∈ objs, o ∈ w.dataObjects → o ∈ st2.world.selected) := by
  have hfil : (m :: rest).filter (fun x => x.active) =
      m :: rest.filter (fun x => x.active) := by
    simp [hact]
  have hpre : preScan env (m :: rest.filter (fun x => x.active)) = Except.ok none := by
    apply preScan_of_noRC
    intro x hx
    rcases List.mem_cons.mp hx with h1 | h2
    · rw [h1, hm]; simp
    · exact hrest x (List.mem_of_mem_filter h2)
  have hW1data : (if keep = true then (initState w).world
      else { (initState w).world with selected := [] }).dataObjects = w.dataObjects := by
    split <;> rfl
  have hW1view : (if keep = true then (initState w).world
      else { (initState w).world with selected := [] }).viewLayerObjects =
      w.viewLayerObjects := by
    split <;> rfl
  have hcond : ((objs.foldl selStep (if keep = true then (initState w).world
        else { (initState w).world with selected := [] })).dataObjects.contains objField &&
      (objs.foldl selStep (if keep = true then (initState w).world
        else { (initState w).world with selected := [] })).viewLayerObjects.contains objField)
      = false := by
    rw [(selFold_world_fields objs _).1, (selFold_world_fields objs _).2, hW1data, hW1view]
    exact hmiss
  refine ⟨alertSt { initState w with
      world := objs.foldl selStep (if keep = true then (initState w).world
        else { (initState w).world with selected := [] }) } m.id,
    ?_, rfl, by simp [alertSt, initState], rfl, rfl, rfl, ?_⟩
  · rw [play, hfil, hpre]
    simp only [preScanStep]
    rw [mainScan.eq_def]
    simp only [hm]
    rw [if_neg hne, if_neg (fun hEq => Bool.false_ne_true (hcond ▸ hEq))]
  · intro o ho hodata
    have : o ∈ (objs.foldl selStep (if keep = true then (initState w).world
        else { (initState w).world with selected := [] })).selected :=
      selFold_mem objs _ o ho (by rw [hW1data]; exact hodata)
    simpa [alertSt] using this

def c6sel : MacroItem :=
  ⟨"sel1", Command.event (Event.selectObject false ["Cube", "Ghost"] "Missing"), true,
   "EXEC_DEFAULT", ""⟩

/-- witness for C6: selecting `Objects = [Cube, Ghost]` with primary
`Object = Missing` in a world holding only `Cube` and `Lamp`. -/
theorem C6_witness :
    ∃ st2, play (0 + 1) okEnv (initState demoWorld) [c6sel] (-1) none none =
        (st2, some (PErr.msg ("Missing" ++ " Object doesn\x27t exist in the active view layer"))) ∧
      st2.actionAlert = true ∧ c6sel.id ∈ st2.alertMacros ∧
      st2.dispatches = [] ∧ st2.timers = [] ∧ st2.rcQueue = [] ∧
      (∀ o ∈ ["Cube", "Ghost"], o ∈ demoWorld.dataObjects → o ∈ st2.world.selected) :=
  C6_select_object_missing okEnv demoWorld 0 c6sel false ["Cube", "Ghost"] "Missing" []
    rfl rfl (by decide) (by decide) (by intro m2 hm2; exact absurd hm2 (List.not_mem_nil m2))

/-! ## Claim C3 -/

def c3x : MacroItem := ⟨"x1", Command.plain "x()", true, "EXEC_DEFAULT", ""⟩

def c3timer : MacroItem := ⟨"t1", Command.event (Event.timer 5), true, "EXEC_DEFAULT", ""⟩

def c3plain : MacroItem := ⟨"b1", Command.plain "b()", true, "EXEC_DEFAULT", ""⟩

/-- Claim C3 (behaviour of the code at the failing input): resuming a pass
with `macrosBeforeTimer = [x1]` and active macros `[Timer, b1]` (the
`Timer` at index `i = 0`), `play` returns immediately with no error,
dispatches nothing, and registers a continuation whose remaining slice is
`activeMacros[i + 1:] = [b1]` — but whose carried `macrosBeforeTimer` is
`[x1] ++ activeMacros[:len - 1 - i] = [x1, Timer]` (the source computes
`macros[:(-1 - i)]`), not `[x1] ++ activeMacros[:i] = [x1]` as the claim
and the source's own comment ("macros already executed") state. -/
theorem C3_timer_carries_wrong_slice :
    play 1 okEnv (initState demoWorld) [c3timer, c3plain] (-1) none (some [c3x]) =
      ({ initState demoWorld with
          timers := [⟨[c3plain], -1, none, some [c3x, c3timer], 5⟩] }, none) ∧
    some [c3x, c3timer] ≠ some ([c3x] ++ List.take 0 [c3timer, c3plain]) := by
  constructor
  · rw [play]
    rw [show List.filter (fun m => m.active) [c3timer, c3plain] = [c3timer, c3plain] from rfl]
    rw [show preScan okEnv [c3timer, c3plain] = Except.ok none from rfl]
    simp only [preScanStep]
    rw [mainScan.eq_def]
    simp only [show c3timer.command = Command.event (Event.timer 5) from rfl]
    decide
  · decide

/-! ## Claim C4 -/

/-- an environment modelling real Python `exec`: plain command strings
execute cleanly, but `exec` of an `ar.event:<json>` payload string raises
NameError (the name `ar` is not defined); `eval` of the loop predicate
returns `False`; scripts run cleanly. -/
def pyEnv : Env :=
  { actionId := "action1", actionType := "global_actions", executionMode := "GROUP",
    exec := fun c w =>
      match c with
      | Command.plain _ => Except.ok w
      | Command.event _ => Except.error PErr.nameError,
    pyEval := fun _ _ => Except.ok false,
    scriptRun := fun _ => none }

def c4loop : MacroItem :=
  ⟨"loop1", Command.event (Event.loop "python" "False" 0 0 0 0), true, "EXEC_DEFAULT", ""⟩

def c4end : MacroItem := ⟨"end1", Command.event Event.endLoop, true, "EXEC_DEFAULT", ""⟩

def c4after : MacroItem := ⟨"after1", Command.plain "c()", true, "EXEC_DEFAULT", ""⟩

/-- Claim C4 (behaviour of the code at the failing input): a `python` loop
whose predicate is false on the first evaluation executes the loop body
zero times — but, because the `python` branch has no `continue`, control
falls through to the plain execution of the `Loop` macro's own
`ar.event:` command string: the `Loop` macro itself is the only dispatch,
its execution raises (NameError in real Python), the alert flags are set,
and the pass halts with the error, never reaching the macro after the
`EndLoop`.  This contradicts the claimed no-error continuation after
`EndLoop` and its claimed non-invocation of the `Loop` macro's command. -/
theorem C4_python_loop_fallthrough :
    (play 2 pyEnv (initState demoWorld) [c4loop, c4end, c4after] (-1) none none).2 =
        some PErr.nameError ∧
    (play 2 pyEnv (initState demoWorld) [c4loop, c4end, c4after] (-1) none
        none).1.dispatches.map Prod.fst = ["loop1"] ∧
    (play 2 pyEnv (initState demoWorld) [c4loop, c4end, c4after] (-1) none
        none).1.actionAlert = true ∧
    "loop1" ∈ (play 2 pyEnv (initState demoWorld) [c4loop, c4end, c4after] (-1) none
        none).1.alertMacros ∧
    "after1" ∉ (play 2 pyEnv (initState demoWorld) [c4loop, c4end, c4after] (-1) none
        none).1.dispatches.map Prod.fst := by
  have hpw : pyWhile 1 pyEnv (initState demoWorld) (List.take 0 [c4end, c4after]) "False" =
      (initState demoWorld, none) := by
    rw [pyWhile]
    rw [show pyEnv.pyEval "False" (initState demoWorld).world = Except.ok false from rfl]
    simp only [pyEvalStep]
  have h : play 2 pyEnv (initState demoWorld) [c4loop, c4end, c4after] (-1) none none =
      ((plainExec pyEnv (initState demoWorld) c4loop).1, some PErr.nameError) := by
    rw [play]
    rw [show List.filter (fun m => m.active) [c4loop, c4end, c4after] =
        [c4loop, c4end, c4after] from rfl]
    rw [show preScan pyEnv [c4loop, c4end, c4after] = Except.ok none from rfl]
    simp only [preScanStep]
    rw [mainScan.eq_def]
    simp only [show c4loop.command =
        Command.event (Event.loop "python" "False" 0 0 0 0) from rfl]
    rw [show findEndLoop 1 [c4end, c4after] 0 = some 0 from rfl]
    rw [loopStep.eq_def]
    simp only [if_pos rfl, if_true]
    rw [hpw]
    simp only [pyContinue]
    rw [show plainExec pyEnv (initState demoWorld) c4loop =
        ((plainExec pyEnv (initState demoWorld) c4loop).1, some PErr.nameError) from rfl]
    simp only [execContinue]
  rw [h]
  refine ⟨rfl, ?_, ?_, ?_, ?_⟩ <;> decide

/-! ## Claim C9 -/

/-- Claim C9 (amended): the target-region scan of `play` yields the FIRST
sub-region of type `WINDOW` in the area's region list — the reverse
iteration keeps overwriting the candidate without breaking, so the last
assignment wins — and keeps the ambient region when no `WINDOW` region
exists. -/
theorem C9_first_window_region (cur : Option Region) (regions : List Region) :
    chooseRegion cur regions =
      match regions.find? (fun r => r.type == "WINDOW") with
      | some r => some r
      | none => cur := by
  induction regions with
  | nil => rfl
  | cons r rs ih =>
    rw [chooseRegion, List.reverse_cons, List.foldl_append]
    rw [show (rs.reverse.foldl
        (fun temp x => if x.type ≠ "WINDOW" then temp else some x) cur) =
      chooseRegion cur rs from rfl]
    rw [ih, List.find?]
    by_cases h : r.type = "WINDOW"
    · simp [h]
    · simp only [List.foldl_cons, List.foldl_nil]
      rw [if_pos h]
      have hb : (r.type == "WINDOW") = false := by
        simp [h]
      rw [hb]

def c9area : Area := ⟨"VIEW_3D", [⟨"R1", "WINDOW"⟩, ⟨"R2", "HEADER"⟩, ⟨"R3", "WINDOW"⟩]⟩

def c9world : World :=
  { dataObjects := ["Cube"], viewLayerObjects := ["Cube"], selected := [],
    activeObject := none, area := some c9area, region := none, windows := [] }

def c9m : MacroItem := ⟨"p1", Command.plain "a()", true, "EXEC_DEFAULT", ""⟩

/-- counterexample to C9 as stated: in an area whose regions are
`[R1 : WINDOW, R2 : HEADER, R3 : WINDOW]`, the last `WINDOW` sub-region is
`R3`, but the plain-command invocation is dispatched against `R1` — the
reverse scan never breaks, so the final overwrite is the first `WINDOW`
region, not the last. -/
theorem C9_counterexample :
    (play 1 okEnv (initState c9world) [c9m] (-1) none none).1.dispatches =
      [("p1", some ⟨"R1", "WINDOW"⟩)] ∧
    ([⟨"R1", "WINDOW"⟩, ⟨"R2", "HEADER"⟩, ⟨"R3", "WINDOW"⟩] : List Region).reverse.find?
        (fun r => r.type == "WINDOW") = some ⟨"R3", "WINDOW"⟩ ∧
    (some (⟨"R1", "WINDOW"⟩ : Region)) ≠ some (⟨"R3", "WINDOW"⟩ : Region) := by
  refine ⟨?_, by decide, by decide⟩
  rw [play]
  rw [show List.filter (fun m => m.active) [c9m] = [c9m] from rfl]
  rw [show preScan okEnv [c9m] = Except.ok none from rfl]
  simp only [preScanStep]
  rw [mainScan.eq_def]
  simp only [show c9m.command = Command.plain "a()" from rfl]
  rw [show plainExec okEnv (initState c9world) c9m =
      ((plainExec okEnv (initState c9world) c9m).1, none) from rfl]
  simp only [execContinue]
  rw [mainScan.eq_def, endOfScan_neg]
  decide

/-! ## Claim C7 -/

theorem foldl_deselect_selected :
    ∀ (l : List String) (w0 : World),
      (l.foldl (fun wa n => selectSet false n wa) w0).selected =
        w0.selected.filter (fun x => !l.contains x) := by
  intro l
  induction l with
  | nil => intro w0; simp
  | cons a l2 ih =>
    intro w0
    rw [List.foldl_cons, ih]
    show ((selectSet false a w0).selected.filter (fun x => !l2.contains x)) = _
    rw [show (selectSet false a w0).selected = w0.selected.filter (fun n => n ≠ a) from rfl]
    rw [List.filter_filter]
    apply List.filter_congr
    intro x _
    by_cases hx : x = a <;> simp [hx]

theorem foldl_reselect_selected :
    ∀ (l : List String) (w0 : World), l.Nodup → (∀ x ∈ l, x ∉ w0.selected) →
      (l.foldl (fun wa n => selectSet true n wa) w0).selected = w0.selected ++ l := by
  intro l
  induction l with
  | nil => intro w0 _ _; simp
  | cons a l2 ih =>
    intro w0 hnd hdisj
    rw [List.foldl_cons]
    have ha : a ∉ w0.selected := hdisj a (by simp)
    have hsel : (selectSet true a w0).selected = w0.selected ++ [a] := by
      rw [selectSet]
      rw [if_pos rfl, if_neg (by simpa using ha)]
    have hrec := ih (selectSet true a w0) (List.Nodup.of_cons hnd)
      (fun x hx => by
        rw [hsel]
        simp only [List.mem_append, List.mem_singleton]
        rintro (h1 | h2)
        · exact hdisj x (by simp [hx]) h1
        · exact (List.nodup_cons.mp hnd).1 (h2 ▸ hx))
    rw [hrec, hsel, List.append_assoc]
    rfl

theorem execIndLoop_preserving (env : Env) (cmd : Command)
    (hsel : ∀ w1, ∃ w2, env.exec cmd w1 = Except.ok w2 ∧ w2.selected = w1.selected) :
    ∀ (objs : List String) (w0 : World), w0.selected = [] →
      ∃ w2, execIndLoop env w0 objs cmd = (w2, List.replicate objs.length cmd, none) ∧
        w2.selected = [] := by
  intro objs
  induction objs with
  | nil => intro w0 h0; exact ⟨w0, rfl, h0⟩
  | cons o rest ih =>
    intro w0 h0
    obtain ⟨wc, he, hcsel⟩ := hsel { selectSet true o w0 with activeObject := some o }
    have hwc : wc.selected = [o] := by
      rw [hcsel]
      show (selectSet true o w0).selected = [o]
      rw [selectSet, if_pos rfl, if_neg (by simp [h0]), h0]
      rfl
    have hwd : (selectSet false o wc).selected = [] := by
      rw [show (selectSet false o wc).selected = wc.selected.filter (fun n => n ≠ o) from rfl,
        hwc]
      simp
    obtain ⟨w2, hrec, h2⟩ := ih (selectSet false o wc) hwd
    refine ⟨w2, ?_, h2⟩
    simp [execIndLoop, he, hrec, List.replicate_succ]

/-- Claim C7 (amended): a plain command executed under
`execution_mode = INDIVIDUAL` is invoked once per object in the selection
captured at entry, and the original selection is restored afterward —
PROVIDED every per-object invocation succeeds (and leaves the selection
as it found it).  A raised per-object error propagates out of
`execute_individually` before the restoration loop runs, so the selection
is NOT restored on failure paths. -/
theorem C7_individual_success_restores (env : Env) (w : World) (cmd : Command)
    (hsel : ∀ w1, ∃ w2, env.exec cmd w1 = Except.ok w2 ∧ w2.selected = w1.selected)
    (hnodup : w.selected.Nodup) :
    ∃ w2, execute_individually env w cmd =
        (w2, List.replicate w.selected.length cmd, none) ∧
      w2.selected = w.selected := by
  have h1 : (w.selected.foldl (fun wa n => selectSet false n wa) w).selected = [] := by
    rw [foldl_deselect_selected]
    apply List.filter_eq_nil_iff.mpr
    intro x hx
    simp [hx]
  obtain ⟨w2, hloop, h2⟩ :=
    execIndLoop_preserving env cmd hsel w.selected
      (w.selected.foldl (fun wa n => selectSet false n wa) w) h1
  refine ⟨w.selected.foldl (fun wa n => selectSet true n wa) w2, ?_, ?_⟩
  · rw [execute_individually, hloop]
  · rw [foldl_reselect_selected w.selected w2 hnodup (fun x _ => by simp [h2])]
    rw [h2]
    rfl

/-- an environment whose `exec` oracle always raises. -/
def failEnv : Env :=
  { actionId := "action1", actionType := "global_actions", executionMode := "INDIVIDUAL",
    exec := fun _ _ => Except.error (PErr.execError "boom"),
    pyEval := fun _ _ => Except.ok false,
    scriptRun := fun _ => none }

def c7world : World :=
  { dataObjects := ["Cube", "Lamp"], viewLayerObjects := ["Cube", "Lamp"],
    selected := ["Cube", "Lamp"], activeObject := none,
    area := none, region := none, windows := [] }

/-- a selection-preserving always-ok oracle used by the C7 witness. -/
theorem C7_witness :
    ∃ w2, execute_individually okEnv c7world (Command.plain "f()") =
        (w2, List.replicate c7world.selected.length (Command.plain "f()"), none) ∧
      w2.selected = c7world.selected :=
  C7_individual_success_restores okEnv c7world (Command.plain "f()")
    (fun w1 => ⟨w1, rfl, rfl⟩) (by decide)

/-- counterexample to C7 as stated: with selection `[Cube, Lamp]` and a
command whose first per-object invocation raises, the error propagates
after a single invocation and the selection is left as `[Cube]` — the
original selection is NOT restored on the failure path. -/
theorem C7_counterexample :
    (execute_individually failEnv c7world (Command.plain "f()")).2.2 =
        some (PErr.execError "boom") ∧
    (execute_individually failEnv c7world (Command.plain "f()")).2.1 =
        [Command.plain "f()"] ∧
    (execute_individually failEnv c7world (Command.plain "f()")).1.selected = ["Cube"] ∧
    (execute_individually failEnv c7world (Command.plain "f()")).1.selected ≠
        c7world.selected := by
  refine ⟨?_, ?_, ?_, ?_⟩ <;> decide

/-! ## Claim C8 -/

def c8m1 : MacroItem := ⟨"m1", Command.plain "a()", true, "EXEC_DEFAULT", ""⟩

def c8prefs : ActRecPrefs := ⟨[⟨"act1", [c8m1]⟩], []⟩

/-- Claim C8 (behaviour of the code at the failing inputs): draining a
queue whose entry names an existing action and an existing resume macro
raises NameError (the source indexes `action.macros[start:]` with the
undefined name `start`; the computed index is bound to `start_index`)
instead of scheduling a continuation; an entry whose action id no longer
exists raises KeyError instead of being skipped; an entry whose resume
macro id is missing IS silently skipped in FIFO order before the next
entry is processed. -/
theorem C8_drain_crashes :
    execute_render_complete c8prefs [("global_actions", "act1", "m1")] =
        ([], some PErr.nameError) ∧
    execute_render_complete c8prefs [("global_actions", "gone", "m1")] =
        ([], some PErr.keyError) ∧
    execute_render_complete c8prefs
        [("global_actions", "act1", "missing"), ("global_actions", "act1", "m1")] =
      ([], some PErr.nameError) := by
  refine ⟨?_, ?_, ?_⟩ <;> decide

/-! ## Claim C2 -/

theorem findEndLoop_body (endM : MacroItem)
    (hend : endM.command = Command.event Event.endLoop) (hendact : endM.active = true)
    (after : List MacroItem) :
    ∀ (body : List MacroItem), (∀ m ∈ body, ∃ s, m.command = Command.plain s) →
    ∀ (j : Nat), findEndLoop 1 (body ++ endM :: after) j = some (j + body.length) := by
  intro body
  induction body with
  | nil =>
    intro _ j
    simp [findEndLoop, isArEvent, hend, hendact]
  | cons m body2 ih =>
    intro h j
    obtain ⟨s, hs⟩ := h m (by simp)
    have ih2 := ih (fun x hx => h x (by simp [hx])) (j + 1)
    rw [List.cons_append, findEndLoop]
    simp only [isArEvent, hs]
    rw [show (if m.active = true then 1 else 1) = 1 from by split <;> rfl]
    rw [if_neg (by decide)]
    rw [ih2]
    congr 1
    simp [List.length_cons]
    omega

theorem play_counted_loop (env : Env) (hexec : ExecTotal env)
    (body after : List MacroItem)
    (hbody : ∀ m ∈ body, NiceMacro m) (hbodyact : ∀ m ∈ body, m.active = true)
    (hafter : ∀ m ∈ after, NiceMacro m) (hafteract : ∀ m ∈ after, m.active = true) :
    ∀ (N : Nat), 1 ≤ N → ∀ (g : Nat) (st : PState),
      ∃ st2, play (N + g + 1) env st body (N : Int) (some after) none = (st2, none) ∧
        StExt st st2
          ((List.replicate N (body.map MacroItem.id)).flatten ++ after.map MacroItem.id) := by
  have hbfil : body.filter (fun m => m.active) = body := by
    rw [List.filter_eq_self]
    intro m hm
    simp [hbodyact m hm]
  have hafil : after.filter (fun m => m.active) = after := by
    rw [List.filter_eq_self]
    intro m hm
    simp [hafteract m hm]
  have hbpre : preScan env body = Except.ok none := by
    apply preScan_of_noRC
    intro m hm
    obtain ⟨⟨s, hs⟩, _, _⟩ := hbody m hm
    simp [hs]
  intro N hN
  induction N, hN using Nat.le_induction with
  | base =>
    intro g st
    obtain ⟨st2, hms, hext2⟩ :=
      mainScan_nice env hexec body hbody (g + 1) st body 0 ((1 : Nat) : Int) (some after) none
    obtain ⟨st3, hp3, hext3⟩ :=
      play_nice env hexec after (fun m hm => hafter m (List.mem_of_mem_filter hm)) g st2
    rw [hafil] at hext3
    refine ⟨st3, ?_, ?_⟩
    · have hfuel : (1 : Nat) + g + 1 = g + 1 + 1 := by omega
      rw [hfuel, play, hbfil, hbpre]
      simp only [preScanStep]
      rw [hms, endOfScan.eq_def]
      rw [if_neg (by norm_num), if_pos (by norm_num)]
      exact hp3
    · have := StExt_trans hext2 hext3
      simpa using this
  | succ N hN ih =>
    intro g st
    obtain ⟨st2, hms, hext2⟩ :=
      mainScan_nice env hexec body hbody (N + g + 1) st body 0 ((N + 1 : Nat) : Int)
        (some after) none
    obtain ⟨st3, hp3, hext3⟩ := ih g st2
    refine ⟨st3, ?_, ?_⟩
    · have hfuel : (N + 1 : Nat) + g + 1 = (N + g + 1) + 1 := by omega
      rw [hfuel, play, hbfil, hbpre]
      simp only [preScanStep]
      rw [hms, endOfScan.eq_def]
      have hc : ((N + 1 : Nat) : Int) - 1 = (N : Int) := by push_cast; ring
      rw [if_pos (show ((N + 1 : Nat) : Int) - 1 > 0 by omega)]
      show play (N + g + 1) env st2 body (((N + 1 : Nat) : Int) - 1) (some after) none =
        (st3, none)
      rw [hc]
      exact hp3
    · have := StExt_trans hext2 hext3
      refine ⟨?_, this.2.1, this.2.2.1, this.2.2.2.1, this.2.2.2.2⟩
      rw [this.1]
      rw [List.replicate_succ, List.flatten_cons, List.append_assoc]

/-- the behaviour the counted-loop branch does deliver on FLAT loops: a
well-nested `Loop`/`EndLoop` pair in counted form (`RepeatCount = N` with
`StatementType` neither `python` nor `count`), with `N ≥ 1` and a body of
plain commands, executes the body exactly `N` times and then continues
with the macros after the `EndLoop` — the same dispatches, in order, as
invoking the body `N` times directly followed by the continuation. -/
theorem counted_loop_flat_repeats (env : Env) (w : World) (g : Nat)
    (loopM endM : MacroItem) (body after : List MacroItem)
    (stmtT pyStmt : String) (a b c : Int) (N : Nat) (hN : 1 ≤ N)
    (hl : loopM.command = Command.event (Event.loop stmtT pyStmt a b c (N : Int)))
    (hlact : loopM.active = true)
    (hstp : stmtT ≠ "python") (hstc : stmtT ≠ "count")
    (hend : endM.command = Command.event Event.endLoop) (hendact : endM.active = true)
    (hbody : ∀ m ∈ body, NiceMacro m) (hbodyact : ∀ m ∈ body, m.active = true)
    (hafter : ∀ m ∈ after, NiceMacro m) (hafteract : ∀ m ∈ after, m.active = true)
    (hexec : ExecTotal env) :
    ∃ st2, play (N + g + 2) env (initState w) (loopM :: (body ++ endM :: after))
        (-1) none none = (st2, none) ∧
      st2.dispatches.map Prod.fst =
        (List.replicate N (body.map MacroItem.id)).flatten ++ after.map MacroItem.id := by
  have hfil : (loopM :: (body ++ endM :: after)).filter (fun m => m.active) =
      loopM :: (body ++ endM :: after) := by
    rw [List.filter_eq_self]
    intro m hm
    rcases List.mem_cons.mp hm with h1 | h2
    · rw [h1]; simp [hlact]
    · rcases List.mem_append.mp h2 with h3 | h4
      · simp [hbodyact m h3]
      · rcases List.mem_cons.mp h4 with h5 | h6
        · rw [h5]; simp [hendact]
        · simp [hafteract m h6]
  have hpre : preScan env (loopM :: (body ++ endM :: after)) = Except.ok none := by
    apply preScan_of_noRC
    intro m hm
    rcases List.mem_cons.mp hm with h1 | h2
    · rw [h1, hl]; simp
    · rcases List.mem_append.mp h2 with h3 | h4
      · obtain ⟨⟨s, hs⟩, _, _⟩ := hbody m h3
        simp [hs]
      · rcases List.mem_cons.mp h4 with h5 | h6
        · rw [h5, hend]; simp
        · obtain ⟨⟨s, hs⟩, _, _⟩ := hafter m h6
          simp [hs]
  have hfel : findEndLoop 1 (body ++ endM :: after) 0 = some body.length := by
    rw [findEndLoop_body endM hend hendact after body (fun m hm => (hbody m hm).1) 0]
    congr 1
    omega
  have htake : (body ++ endM :: after).take body.length = body := List.take_left body _
  have hdrop : (body ++ endM :: after).drop (body.length + 1) = after := by
    rw [List.drop_append 1]
    rfl
  obtain ⟨st2, hp2, hext2⟩ :=
    play_counted_loop env hexec body after hbody hbodyact hafter hafteract N hN g
      (initState w)
  refine ⟨st2, ?_, ?_⟩
  · have hfuel : N + g + 2 = (N + g + 1) + 1 := by omega
    rw [hfuel, play, hfil, hpre]
    simp only [preScanStep]
    rw [mainScan.eq_def]
    simp only [hl]
    rw [hfel, loopStep.eq_def]
    simp only [if_neg hstp, if_neg hstc]
    rw [htake, hdrop]
    exact hp2
  · have := hext2.1
    simpa [initState] using this

def c2loop2 : MacroItem :=
  ⟨"l2", Command.event (Event.loop "" "" 0 0 0 2), true, "EXEC_DEFAULT", ""⟩

def c2loop0 : MacroItem :=
  ⟨"l0", Command.event (Event.loop "" "" 0 0 0 0), true, "EXEC_DEFAULT", ""⟩

def c2a : MacroItem := ⟨"a1", Command.plain "a()", true, "EXEC_DEFAULT", ""⟩

def c2end : MacroItem := ⟨"e1", Command.event Event.endLoop, true, "EXEC_DEFAULT", ""⟩

def c2after : MacroItem := ⟨"b1", Command.plain "b()", true, "EXEC_DEFAULT", ""⟩

/-- the flat counted-loop behaviour at a concrete input:
`RepeatCount = 2`, a one-macro body and a one-macro continuation. -/
theorem counted_loop_flat_example :
    ∃ st2, play (2 + 0 + 2) okEnv (initState demoWorld)
        (c2loop2 :: ([c2a] ++ c2end :: [c2after])) (-1) none none = (st2, none) ∧
      st2.dispatches.map Prod.fst =
        (List.replicate 2 ([c2a].map MacroItem.id)).flatten ++
          [c2after].map MacroItem.id :=
  counted_loop_flat_repeats okEnv demoWorld 0 c2loop2 c2end [c2a] [c2after] "" "" 0 0 0 2
    (by decide) rfl rfl (by decide) (by decide) rfl rfl
    (by intro m hm; fin_cases hm; exact ⟨⟨_, rfl⟩, rfl, rfl⟩)
    (by intro m hm; fin_cases hm; rfl)
    (by intro m hm; fin_cases hm; exact ⟨⟨_, rfl⟩, rfl, rfl⟩)
    (by intro m hm; fin_cases hm; rfl)
    okEnv_total

/-- the counted-loop branch at `RepeatCount = 0`: the loop body is
executed once (not zero times) and the macros after the `EndLoop` are
never executed, because the inner `play` call runs one full pass before
the looping count is inspected and a looping count of `-1` after
decrement skips the after-loop continuation entirely. -/
theorem counted_loop_zero_runs_once :
    (play 2 okEnv (initState demoWorld) [c2loop0, c2a, c2end, c2after] (-1) none
        none).1.dispatches.map Prod.fst = ["a1"] ∧
    (play 2 okEnv (initState demoWorld) [c2loop0, c2a, c2end, c2after] (-1) none
        none).1.dispatches.map Prod.fst ≠
      (List.replicate 0 ([c2a].map MacroItem.id)).flatten ++
        [c2after].map MacroItem.id := by
  have h : (play 2 okEnv (initState demoWorld) [c2loop0, c2a, c2end, c2after] (-1) none
      none).1.dispatches.map Prod.fst = ["a1"] := by
    rw [play]
    rw [show List.filter (fun m => m.active) [c2loop0, c2a, c2end, c2after] =
        [c2loop0, c2a, c2end, c2after] from rfl]
    rw [show preScan okEnv [c2loop0, c2a, c2end, c2after] = Except.ok none from rfl]
    simp only [preScanStep]
    rw [mainScan.eq_def]
    simp only [show c2loop0.command = Command.event (Event.loop "" "" 0 0 0 0) from rfl]
    rw [show findEndLoop 1 [c2a, c2end, c2after] 0 = some 1 from rfl]
    rw [loopStep.eq_def]
    simp only []
    rw [if_neg (by decide), if_neg (by decide)]
    rw [show List.take 1 [c2a, c2end, c2after] = [c2a] from rfl]
    rw [show List.drop (1 + 1) [c2a, c2end, c2after] = [c2after] from rfl]
    rw [play]
    rw [show List.filter (fun m => m.active) [c2a] = [c2a] from rfl]
    rw [show preScan okEnv [c2a] = Except.ok none from rfl]
    simp only [preScanStep]
    rw [mainScan.eq_def]
    simp only [show c2a.command = Command.plain "a()" from rfl]
    rw [show plainExec okEnv (initState demoWorld) c2a =
        ((plainExec okEnv (initState demoWorld) c2a).1, none) from rfl]
    simp only [execContinue]
    rw [mainScan.eq_def]
    rw [endOfScan.eq_def]
    rw [if_neg (by decide), if_neg (by decide)]
    decide
  exact ⟨h, by rw [h]; decide⟩

def n2outer : MacroItem :=
  ⟨"lo", Command.event (Event.loop "" "" 0 0 0 2), true, "EXEC_DEFAULT", ""⟩

def n2inner : MacroItem :=
  ⟨"li", Command.event (Event.loop "" "" 0 0 0 2), true, "EXEC_DEFAULT", ""⟩

def n2x : MacroItem := ⟨"x1", Command.plain "x()", true, "EXEC_DEFAULT", ""⟩

def n2b : MacroItem := ⟨"b1", Command.plain "b()", true, "EXEC_DEFAULT", ""⟩

def n2endI : MacroItem := ⟨"ei", Command.event Event.endLoop, true, "EXEC_DEFAULT", ""⟩

def n2endO : MacroItem := ⟨"eo", Command.event Event.endLoop, true, "EXEC_DEFAULT", ""⟩

def n2z : MacroItem := ⟨"z1", Command.plain "z()", true, "EXEC_DEFAULT", ""⟩

/-- Claim C2 (behaviour of the code at the failing input): a nested
counted loop — `[Loop(2), x, Loop(2), b, EndLoop, EndLoop, z]`, a
well-nested no-Timer body inside the claim's scope — dispatches
`[x, b, b]` and returns with no error.  The counted branch ends in
`return play(...)`, so when the inner `Loop` is reached the outer
invocation's looping count and after-loop macros are discarded: the outer
body runs once instead of twice, and `z` after the outer `EndLoop` never
runs — instead of the claimed two full body passes followed by `z`
(`[x, b, b, x, b, b, z]`). -/
theorem C2_nested_loop_discards :
    ∃ st2, play 5 okEnv (initState demoWorld)
        [n2outer, n2x, n2inner, n2b, n2endI, n2endO, n2z] (-1) none none = (st2, none) ∧
      st2.dispatches.map Prod.fst = ["x1", "b1", "b1"] ∧
      "z1" ∉ st2.dispatches.map Prod.fst ∧
      st2.dispatches.map Prod.fst ≠
        (List.replicate 2 ["x1", "b1", "b1"]).flatten ++ ["z1"] := by
  obtain ⟨st2, hI, hIx⟩ :=
    play_counted_loop okEnv okEnv_total [n2b] []
      (by intro m hm; fin_cases hm; exact ⟨⟨_, rfl⟩, rfl, rfl⟩)
      (by intro m hm; fin_cases hm; rfl)
      (by intro m hm; exact absurd hm (List.not_mem_nil m))
      (by intro m hm; exact absurd hm (List.not_mem_nil m))
      2 (by decide) 0 ((plainExec okEnv (initState demoWorld) n2x).1)
  have hd : st2.dispatches.map Prod.fst = ["x1", "b1", "b1"] := by
    have h1 : (plainExec okEnv (initState demoWorld) n2x).1.dispatches.map Prod.fst =
        ["x1"] := by decide
    rw [hIx.1, h1]
    decide
  refine ⟨st2, ?_, hd, by rw [hd]; decide, by rw [hd]; decide⟩
  rw [play]
  rw [show List.filter (fun m => m.active)
      [n2outer, n2x, n2inner, n2b, n2endI, n2endO, n2z] =
      [n2outer, n2x, n2inner, n2b, n2endI, n2endO, n2z] from rfl]
  rw [show preScan okEnv [n2outer, n2x, n2inner, n2b, n2endI, n2endO, n2z] =
      Except.ok none from rfl]
  simp only [preScanStep]
  rw [mainScan.eq_def]
  simp only [show n2outer.command = Command.event (Event.loop "" "" 0 0 0 2) from rfl]
  rw [show findEndLoop 1 [n2x, n2inner, n2b, n2endI, n2endO, n2z] 0 = some 4 from rfl]
  rw [loopStep.eq_def]
  simp only []
  rw [if_neg (by decide), if_neg (by decide)]
  rw [show List.take 4 [n2x, n2inner, n2b, n2endI, n2endO, n2z] =
      [n2x, n2inner, n2b, n2endI] from rfl]
  rw [show List.drop (4 + 1) [n2x, n2inner, n2b, n2endI, n2endO, n2z] = [n2z] from rfl]
  rw [play]
  rw [show List.filter (fun m => m.active) [n2x, n2inner, n2b, n2endI] =
      [n2x, n2inner, n2b, n2endI] from rfl]
  rw [show preScan okEnv [n2x, n2inner, n2b, n2endI] = Except.ok none from rfl]
  simp only [preScanStep]
  rw [mainScan.eq_def]
  simp only [show n2x.command = Command.plain "x()" from rfl]
  rw [show plainExec okEnv (initState demoWorld) n2x =
      ((plainExec okEnv (initState demoWorld) n2x).1, none) from rfl]
  simp only [execContinue]
  rw [mainScan.eq_def]
  simp only [show n2inner.command = Command.event (Event.loop "" "" 0 0 0 2) from rfl]
  rw [show findEndLoop 1 [n2b, n2endI] 0 = some 1 from rfl]
  rw [loopStep.eq_def]
  simp only []
  rw [if_neg (by decide), if_neg (by decide)]
  rw [show List.take 1 [n2b, n2endI] = [n2b] from rfl]
  rw [show List.drop (1 + 1) [n2b, n2endI] = ([] : List MacroItem) from rfl]
  exact hI
